import Mathlib

/-!
Verification of the real-time collaboration core of the Hackathon_MBD_Back
repository (NestJS diagram-editor backend), as a shallow embedding in Lean 4.

The embedding models, faithfully to the TypeScript source:
* `CollabService` (src/diagrams/collab/collab.service.ts) — the file contains
  two successive class definitions; they are embedded with `A` (first) and `B`
  (second) suffixes where they differ;
* `CollabGateway` (src/diagrams/collab/collab.gateway.ts) — connection
  handshake identity and room broadcast behaviour;
* `ShareLinksService` (src/diagrams/shared-link/shared-links.service.ts);
* `SheetsService.applyPatchWithVersion` (sheet patch synchronizer).

JavaScript objects are modelled as ordered association lists of JSON values;
JS truthiness of optional strings / numeric columns is modelled explicitly
(`strTruthy`, the `maxUses` zero check); persistence is modelled as explicit
state passing, with a transaction rendered as a single state transition.
-/

namespace Collab

/-- JSON values, modelling the opaque `jsonb` payloads (`data` columns). -/
inductive JValue where
  | null : JValue
  | boolean : Bool → JValue
  | num : Int → JValue
  | str : String → JValue
  | arr : List JValue → JValue
  | obj : List (String × JValue) → JValue

/-- A JS object: ordered association list of fields (insertion order kept). -/
abbrev JObject := List (String × JValue)

/-- `{...data, key: v}`: override the field when present (in place), append
it otherwise — JS spread/assignment semantics on one key. -/
def objSet (data : JObject) (key : String) (v : JValue) : JObject :=
  if data.any (fun p => p.1 == key) then
    data.map (fun p => if p.1 == key then (key, v) else p)
  else
    data ++ [(key, v)]

/-- `{...data, ...m}`: every field of `m` overrides / extends `data`. -/
def objMerge (data m : JObject) : JObject :=
  m.foldl (fun acc p => objSet acc p.1 p.2) data

/-- JS truthiness of an optional string: `undefined`/`null` and `""` are
falsy, every other string is truthy. -/
def strTruthy : Option String → Bool
  | none => false
  | some s => s ≠ ""

/-- `String(x)` on a nullable string column: `null` prints as `"null"`. -/
def jsStringOfOpt : Option String → String
  | none => "null"
  | some s => s

/-- Error taxonomy of the collaboration core (Nest exception classes). -/
inductive CollabError where
  | notFound : CollabError
  | forbidden : CollabError
  | conflict : CollabError
  deriving DecidableEq, Repr

/-- The `ops` payload of a `change` message, as `applyOpsPure` inspects it:
an optional object merge, optional `nodes` / `edges` array replacement,
optional `title` string. A `some` field models a truthy value that passed
the corresponding `typeof` / `Array.isArray` test. -/
structure Ops where
  apply : Option JObject
  nodes : Option (List JValue)
  edges : Option (List JValue)
  title : Option String

/-- A Document row: opaque JSON `data` plus the integer `version` column. -/
structure Document where
  data : JObject
  version : Nat

/-- `CollabService.applyOpsPure(data, ops)`: first truthy branch wins, in
source order — full object merge, `nodes` replacement, `edges` replacement,
`title` replacement, else the data unchanged. -/
def applyOpsPure (data : JObject) (ops : Ops) : JObject :=
  match ops.apply with
  | some m => objMerge data m
  | none =>
    match ops.nodes with
    | some ns => objSet data "nodes" (JValue.arr ns)
    | none =>
      match ops.edges with
      | some es => objSet data "edges" (JValue.arr es)
      | none =>
        match ops.title with
        | some t => objSet data "title" (JValue.str t)
        | none => data

/-- Result of the storage-level conditional update
`UPDATE ... WHERE id = :id AND version = :version`: the row after the
statement and the affected-row count. -/
structure CondUpdateResult where
  doc : Document
  affected : Nat

/-- The conditional write: replaces `data`/`version` only when the stored
version still equals the expected one; reports the affected-row count. -/
def condUpdateDocument (doc : Document) (expected : Nat) (newData : JObject)
    (newVersion : Nat) : CondUpdateResult :=
  if doc.version = expected then ⟨⟨newData, newVersion⟩, 1⟩ else ⟨doc, 0⟩

/-- `CollabService.applyOps` as one transaction over the document row
(`none` models a missing row): read the current row, raise NotFound when
absent, Conflict when the stored version differs from the supplied one,
otherwise perform the conditional update and raise Conflict when it did not
affect exactly one row. Returns the post-transaction row together with the
result `{version, appliedOps}` or the raised error. -/
def applyOps (current : Option Document) (version : Nat) (ops : Ops) :
    Option Document × Except CollabError (Nat × Ops) :=
  match current with
  | none => (none, Except.error CollabError.notFound)
  | some doc =>
    if doc.version ≠ version then (some doc, Except.error CollabError.conflict)
    else
      let nextData := applyOpsPure doc.data ops
      let nextVersion := version + 1
      let res := condUpdateDocument doc version nextData nextVersion
      if res.affected ≠ 1 then (some res.doc, Except.error CollabError.conflict)
      else (some res.doc, Except.ok (nextVersion, ops))

/-! ## Collaborators and share links -/

/-- Collaborator roles (`role_collab` enum). -/
inductive Role where
  | owner : Role
  | editor : Role
  | reader : Role
  deriving DecidableEq, Repr

/-- A Collaborator row: unique on `(documentId, userSub)`. -/
structure Collaborator where
  documentId : String
  userSub : String
  role : Role
  deriving DecidableEq, Repr

/-- Share-link scope enum. -/
inductive ShareScope where
  | document : ShareScope
  | project : ShareScope
  deriving DecidableEq, Repr

/-- Share-link minimum role enum (`min_role`). -/
inductive MinRole where
  | editor : MinRole
  | reader : MinRole
  deriving DecidableEq, Repr

/-- A ShareLink row. Timestamps are abstract instants (`Nat`); `maxUses`
and `uses` keep the `int` column type. -/
structure ShareLink where
  id : String
  slug : String
  scope : ShareScope
  projectId : Option String
  documentId : Option String
  minRole : MinRole
  expiresAt : Option Nat
  maxUses : Option Int
  uses : Int
  isActive : Bool
  deriving DecidableEq, Repr

/-- A Document row as the share-link flow sees it: its id and owning
project. -/
structure DocumentRow where
  id : String
  projectId : String
  deriving DecidableEq, Repr

/-- `collabRepo.findOne({ where: { documentId, userSub } })`. -/
def findCollaborator (collabs : List Collaborator) (documentId userSub : String) :
    Option Collaborator :=
  collabs.find? (fun c => c.documentId == documentId && c.userSub == userSub)

/-- `shareLinkRepo.findOne({ where: { slug, isActive: true } })`. -/
def findActiveLink (links : List ShareLink) (slug : String) : Option ShareLink :=
  links.find? (fun l => l.slug == slug && l.isActive)

/-- The `isExpired` getter of the ShareLink entity:
`!!expiresAt && now > expiresAt` (a null `expiresAt` is never expired). -/
def isExpired (link : ShareLink) (now : Nat) : Bool :=
  match link.expiresAt with
  | none => false
  | some e => now > e

/-- The recurring usage-cap guard `link.maxUses && link.uses >= link.maxUses`:
JS falsiness makes a null **or zero** `maxUses` skip the comparison. -/
def usageLimitReached (link : ShareLink) : Bool :=
  match link.maxUses with
  | none => false
  | some m => decide (m ≠ 0) && decide (link.uses ≥ m)

/-- Maps a share link `minRole` into the collaborator role it grants. -/
def roleOfMinRole : MinRole → Role
  | MinRole.editor => Role.editor
  | MinRole.reader => Role.reader

/-! ## CollabService permission checks

The service file contains two complete class definitions.  The first is
embedded with an `A` suffix, the second with a `B` suffix. -/

/-- `ensureCanJoin` (first definition): authenticated path requires any
Collaborator row; guest path requires an active, unexpired, non-exhausted
link whose `String(documentId)` equals the requested document; otherwise
Forbidden. -/
def ensureCanJoinA (collabs : List Collaborator) (links : List ShareLink)
    (now : Nat) (documentId : String) (userSub sharedToken : Option String) :
    Except CollabError Unit :=
  if strTruthy userSub && !strTruthy sharedToken then
    match findCollaborator collabs documentId (userSub.getD "") with
    | none => Except.error CollabError.forbidden
    | some _ => Except.ok ()
  else if strTruthy sharedToken then
    match findActiveLink links (sharedToken.getD "") with
    | none => Except.error CollabError.forbidden
    | some link =>
      if isExpired link now then Except.error CollabError.forbidden
      else if usageLimitReached link then Except.error CollabError.forbidden
      else if jsStringOfOpt link.documentId ≠ documentId then
        Except.error CollabError.forbidden
      else Except.ok ()
  else Except.error CollabError.forbidden

/-- `ensureCanEdit` (first definition): authenticated path rejects a missing
row or a `reader` row; guest path additionally requires `minRole = editor`;
no credentials at all is Forbidden. -/
def ensureCanEditA (collabs : List Collaborator) (links : List ShareLink)
    (now : Nat) (documentId : String) (userSub sharedToken : Option String) :
    Except CollabError Unit :=
  if strTruthy userSub && !strTruthy sharedToken then
    match findCollaborator collabs documentId (userSub.getD "") with
    | none => Except.error CollabError.forbidden
    | some c =>
      if c.role = Role.reader then Except.error CollabError.forbidden
      else Except.ok ()
  else if strTruthy sharedToken then
    match findActiveLink links (sharedToken.getD "") with
    | none => Except.error CollabError.forbidden
    | some link =>
      if isExpired link now then Except.error CollabError.forbidden
      else if usageLimitReached link then Except.error CollabError.forbidden
      else if jsStringOfOpt link.documentId ≠ documentId then
        Except.error CollabError.forbidden
      else if link.minRole ≠ MinRole.editor then Except.error CollabError.forbidden
      else Except.ok ()
  else Except.error CollabError.forbidden

/-- `ensureCanEdit` (second definition): same branches but a strict
(non-stringified) `documentId` comparison, and — crucially — **no** final
`throw`: with falsy credentials the method falls through and returns
normally. -/
def ensureCanEditB (collabs : List Collaborator) (links : List ShareLink)
    (now : Nat) (documentId : String) (userSub sharedToken : Option String) :
    Except CollabError Unit :=
  if strTruthy userSub && !strTruthy sharedToken then
    match findCollaborator collabs documentId (userSub.getD "") with
    | none => Except.error CollabError.forbidden
    | some c =>
      if c.role = Role.reader then Except.error CollabError.forbidden
      else Except.ok ()
  else if strTruthy sharedToken then
    match findActiveLink links (sharedToken.getD "") with
    | none => Except.error CollabError.forbidden
    | some link =>
      if isExpired link now then Except.error CollabError.forbidden
      else if usageLimitReached link then Except.error CollabError.forbidden
      else if link.documentId ≠ some documentId then
        Except.error CollabError.forbidden
      else if link.minRole ≠ MinRole.editor then Except.error CollabError.forbidden
      else Except.ok ()
  else Except.ok ()

/-- Permission levels returned by `getPermissions`. -/
inductive Perm where
  | read : Perm
  | edit : Perm
  deriving DecidableEq, Repr

/-- `getPermissions` (first definition): may return `null` (no access).
Authenticated path: missing row is `null`, only role `editor` maps to
`edit`, every other role to `read`. Guest path: stringified document
comparison, expiry check but no usage-cap check. -/
def getPermissionsA (collabs : List Collaborator) (links : List ShareLink)
    (now : Nat) (documentId : String) (userSub sharedToken : Option String) :
    Option Perm :=
  if strTruthy userSub && !strTruthy sharedToken then
    match findCollaborator collabs documentId (userSub.getD "") with
    | none => none
    | some c => if c.role = Role.editor then some Perm.edit else some Perm.read
  else if strTruthy sharedToken then
    match findActiveLink links (sharedToken.getD "") with
    | none => none
    | some link =>
      if jsStringOfOpt link.documentId ≠ documentId then none
      else if isExpired link now then none
      else if link.minRole = MinRole.editor then some Perm.edit else some Perm.read
  else none

/-- `getPermissions` (second definition): total, defaulting to `read`.
`collab?.role === 'editor'` maps only `editor` to `edit`; guest path has a
strict document comparison and neither expiry nor usage-cap check. -/
def getPermissionsB (collabs : List Collaborator) (links : List ShareLink)
    (documentId : String) (userSub sharedToken : Option String) : Perm :=
  if strTruthy userSub && !strTruthy sharedToken then
    match findCollaborator collabs documentId (userSub.getD "") with
    | none => Perm.read
    | some c => if c.role = Role.editor then Perm.edit else Perm.read
  else if strTruthy sharedToken then
    match findActiveLink links (sharedToken.getD "") with
    | none => Perm.read
    | some link =>
      if link.documentId ≠ some documentId then Perm.read
      else if link.minRole = MinRole.editor then Perm.edit else Perm.read
  else Perm.read

/-! ## ShareLinksService: preview, accept, and usage accounting -/

/-- Persistent plus process-local state the share-link flows touch. -/
structure DBState where
  links : List ShareLink
  collabs : List Collaborator
  docs : List DocumentRow
  alreadyCounted : List String

/-- `manager.upsert(Collaborator, row, { conflictPaths: [documentId, userSub] })`:
update the role of the existing row(s) with the natural key, insert a fresh
row otherwise. -/
def upsertCollaborator (collabs : List Collaborator) (documentId userSub : String)
    (role : Role) : List Collaborator :=
  if collabs.any (fun c => c.documentId == documentId && c.userSub == userSub) then
    collabs.map (fun c =>
      if c.documentId == documentId && c.userSub == userSub then
        { c with role := role }
      else c)
  else collabs ++ [⟨documentId, userSub, role⟩]

/-- `manager.increment(ShareLink, { id }, uses, 1)`. -/
def incrementUsesById (links : List ShareLink) (id : String) : List ShareLink :=
  links.map (fun l => if l.id == id then { l with uses := l.uses + 1 } else l)

/-- `shareLinkRepo.increment({ slug }, uses, 1)`. -/
def incrementUsesBySlug (links : List ShareLink) (slug : String) : List ShareLink :=
  links.map (fun l => if l.slug == slug then { l with uses := l.uses + 1 } else l)

/-- `ShareLinksService.preview(slug)`: read-only validity check — NotFound
for a missing/inactive slug, Forbidden when expired or out of uses,
otherwise the link. -/
def preview (links : List ShareLink) (now : Nat) (slug : String) :
    Except CollabError ShareLink :=
  match findActiveLink links slug with
  | none => Except.error CollabError.notFound
  | some link =>
    if isExpired link now then Except.error CollabError.forbidden
    else if usageLimitReached link then Except.error CollabError.forbidden
    else Except.ok link

/-- The Collaborator upserts `accept` performs for a validated link:
document scope upserts the link's document, project scope upserts every
document currently under the link's project, a scope/target mismatch
upserts nothing. -/
def acceptCollabs (st : DBState) (link : ShareLink) (userSub : String) :
    List Collaborator :=
  match link.scope, link.documentId with
  | ShareScope.document, some did =>
    upsertCollaborator st.collabs did userSub (roleOfMinRole link.minRole)
  | ShareScope.document, none => st.collabs
  | ShareScope.project, _ =>
    match link.projectId with
    | some pid =>
      let ds := st.docs.filter (fun (d : DocumentRow) => d.projectId == pid)
      let upd := fun (acc : List Collaborator) (d : DocumentRow) =>
        upsertCollaborator acc d.id userSub (roleOfMinRole link.minRole)
      ds.foldl upd st.collabs
    | none => st.collabs

/-- `ShareLinksService.accept(slug, userSub)` as one transaction: re-validate
active/expiry/exhaustion; for document scope upsert one Collaborator row at
`minRole`; for project scope upsert one row per document of the project;
then increment `uses` by 1. Returns the post-transaction state and the
outcome (the state is unchanged on every error path). -/
def accept (st : DBState) (now : Nat) (slug userSub : String) :
    DBState × Except CollabError Unit :=
  match findActiveLink st.links slug with
  | none => (st, Except.error CollabError.notFound)
  | some link =>
    if isExpired link now then (st, Except.error CollabError.forbidden)
    else if usageLimitReached link then (st, Except.error CollabError.forbidden)
    else
      ({ st with collabs := acceptCollabs st link userSub,
                 links := incrementUsesById st.links link.id }, Except.ok ())

/-- `CollabService.incrementShareUseOnce(slug)`: a process-local
already-counted set short-circuits; otherwise increment `uses` when the
link is active and under its cap, and record the slug as counted. -/
def incrementShareUseOnce (st : DBState) (slug : String) : DBState :=
  if st.alreadyCounted.contains slug then st
  else
    match findActiveLink st.links slug with
    | none => st
    | some link =>
      if usageLimitReached link then st
      else { st with
              links := incrementUsesBySlug st.links slug,
              alreadyCounted := slug :: st.alreadyCounted }

/-! ## SheetsService.applyPatchWithVersion -/

/-- The `data` jsonb of a sheet: `nodes`/`edges` may each be absent. -/
structure SheetData where
  nodes : Option (List JValue)
  edges : Option (List JValue)

/-- A Sheet row (the fields `applyPatchWithVersion` reads and writes). -/
structure Sheet where
  id : String
  documentId : String
  data : Option SheetData
  version : Nat

/-- The patch request: optional wholesale `nodes` / `edges` replacements
(a `some` models a value that passed `Array.isArray`). -/
structure PatchInput where
  sheetId : String
  baseVersion : Nat
  nodes : Option (List JValue)
  edges : Option (List JValue)

/-- The `{sheetId, documentId, nodes, edges, version}` reply. -/
structure PatchResult where
  sheetId : String
  documentId : String
  nodes : List JValue
  edges : List JValue
  version : Nat

/-- `SheetsService.applyPatchWithVersion`: NotFound for a missing sheet; a
stale `baseVersion < version` silently returns the current authoritative
state without writing; otherwise wholesale-replace the supplied arrays
(keeping absent ones), bump `version` by 1, persist and return. Returns
the post-call sheet row alongside the reply. -/
def applyPatchWithVersion (sheet : Option Sheet) (input : PatchInput) :
    Option Sheet × Except CollabError PatchResult :=
  match sheet with
  | none => (none, Except.error CollabError.notFound)
  | some s =>
    if input.baseVersion < s.version then
      let data := s.data.getD ⟨none, none⟩
      (some s, Except.ok
        ⟨s.id, s.documentId, data.nodes.getD [], data.edges.getD [], s.version⟩)
    else
      let current := s.data.getD ⟨none, none⟩
      let nextNodes :=
        match input.nodes with
        | some ns => ns
        | none => current.nodes.getD []
      let nextEdges :=
        match input.edges with
        | some es => es
        | none => current.edges.getD []
      let newVersion := s.version + 1
      (some { s with data := some ⟨some nextNodes, some nextEdges⟩,
                     version := newVersion },
       Except.ok ⟨s.id, s.documentId, nextNodes, nextEdges, newVersion⟩)

/-! ## CollabGateway: handshake identity and room broadcasts -/

/-- The `handshake.auth` object a connecting socket presents. -/
structure HandshakeAuth where
  token : Option String
  sharedToken : Option String

/-- Outcome of `handleConnection`: a synthetic guest identity, a handoff to
external JWT verification, or an immediate disconnect. -/
inductive ConnOutcome where
  | assigned : String → Bool → ConnOutcome
  | verifyJwt : String → ConnOutcome
  | disconnected : ConnOutcome
  deriving DecidableEq, Repr

/-- `CollabGateway.handleConnection`: a truthy `sharedToken` yields the
synthetic identity `"guest:" + sharedToken` with `isGuest = true`; else a
truthy bearer token goes to the (external) JWT verifier; else the socket
is disconnected. -/
def handleConnection (auth : HandshakeAuth) : ConnOutcome :=
  if strTruthy auth.sharedToken then
    ConnOutcome.assigned ("guest:" ++ auth.sharedToken.getD "") true
  else if strTruthy auth.token then
    ConnOutcome.verifyJwt (auth.token.getD "")
  else ConnOutcome.disconnected

/-- `client.join(room)`: socket.io adds the socket to the room (idempotent). -/
def joinRoom (members : List String) (cid : String) : List String :=
  if members.contains cid then members else members ++ [cid]

/-- `client.leave(room)`: socket.io removes the socket from the room. -/
def leaveRoom (members : List String) (cid : String) : List String :=
  members.filter (fun m => m ≠ cid)

/-- `onJoin` room effect: `await client.join(room)` and then
`this.io.to(room).emit(presence:joined, ...)` — the broadcast goes to every
socket currently in the room, which by then includes the joiner. Returns
the new member list and the delivery set of the broadcast. -/
def onJoinEmit (members : List String) (cid : String) : List String × List String :=
  let members1 := joinRoom members cid
  (members1, members1)

/-- `onLeave` room effect: `await client.leave(room)` and then
`this.io.to(room).emit(presence:left, ...)` — the leaver is out of the room
before the broadcast, so the delivery set is the remaining members. -/
def onLeaveEmit (members : List String) (cid : String) : List String × List String :=
  let members1 := leaveRoom members cid
  (members1, members1)

/-- `handleDisconnect` room effect for one `doc:` room the socket was in:
socket.io removes a disconnecting socket from its rooms (and it can no
longer receive), so the `io.to(room)` emit reaches the remaining members. -/
def onDisconnectEmit (members : List String) (cid : String) :
    List String × List String :=
  let members1 := leaveRoom members cid
  (members1, members1)

/-! ## Observation helpers and usage-accounting traces -/

/-- Look a share link up by its primary key. -/
def findLinkById (links : List ShareLink) (id : String) : Option ShareLink :=
  links.find? (fun l => l.id == id)

/-- The role the first Collaborator row with the natural key carries. -/
def memberRole (collabs : List Collaborator) (documentId userSub : String) :
    Option Role :=
  (findCollaborator collabs documentId userSub).map (fun c => c.role)

/-- How many Collaborator rows carry the natural key `(documentId, userSub)`
— the key is unique in the database, so a correct flow keeps this at most 1. -/
def countKey (collabs : List Collaborator) (documentId userSub : String) : Nat :=
  collabs.countP (fun c => c.documentId == documentId && c.userSub == userSub)

/-- The two operations of the share-usage accounting surface. -/
inductive UsageOp where
  | acceptOp : Nat → String → String → UsageOp
  | incOnceOp : String → UsageOp

/-- Run one usage-accounting operation (dropping the reply). -/
def runUsageOp (st : DBState) : UsageOp → DBState
  | UsageOp.acceptOp now slug userSub => (accept st now slug userSub).1
  | UsageOp.incOnceOp slug => incrementShareUseOnce st slug

/-- Run a sequence of usage-accounting operations. -/
def runUsageOps (st : DBState) (ops : List UsageOp) : DBState :=
  ops.foldl runUsageOp st

/-- Every link whose `maxUses` is set to a nonzero value has `uses` within
the cap (zero is excluded because JS falsiness disables that cap). -/
def UsesBound (links : List ShareLink) : Prop :=
  ∀ l ∈ links, ∀ m : Int, l.maxUses = some m → m ≠ 0 → l.uses ≤ m

/-! ## Concrete rows used by witnesses and counterexamples -/

/-- A concrete `change` ops payload replacing the title. -/
def opsTitleEx : Ops := ⟨none, none, none, some "t2"⟩

/-- A concrete document row at version 5. -/
def docEx : Document := ⟨[("title", JValue.str "t1")], 5⟩

/-- A concrete sheet row at version 2 with one node and no edges field. -/
def sheetEx : Sheet :=
  ⟨"sh1", "d1", some ⟨some [JValue.str "n1"], none⟩, 2⟩

/-- A concrete project-scope share link: active, no expiry, no usage cap. -/
def projLink : ShareLink :=
  ⟨"l1", "tok", ShareScope.project, some "p1", none, MinRole.editor,
   none, none, 0, true⟩

/-- A concrete revoked link: inactive, yet unexpired at `now = 0` and with
uses well under its cap. -/
def revokedLink : ShareLink :=
  ⟨"l2", "tok2", ShareScope.document, none, some "d1", MinRole.reader,
   some 100, some 5, 0, false⟩

/-- A concrete active document-scope link with `maxUses = 0`. -/
def zeroCapLink : ShareLink :=
  ⟨"l3", "tok3", ShareScope.document, none, some "d1", MinRole.reader,
   none, some 0, 0, true⟩

/-- Scenario B's link: active, `maxUses = 3`, `minRole = reader`, fresh. -/
def capLink : ShareLink :=
  ⟨"l4", "tok4", ShareScope.document, none, some "d1", MinRole.reader,
   none, some 3, 0, true⟩

/-- The database state holding only `capLink`. -/
def capState : DBState := ⟨[capLink], [], [], []⟩

/-- Scenario B's first three accept calls. -/
def threeAccepts : List UsageOp :=
  [UsageOp.acceptOp 0 "tok4" "u1", UsageOp.acceptOp 0 "tok4" "u2",
   UsageOp.acceptOp 0 "tok4" "u3"]

/-- A concrete active editor link for document `d1` with `maxUses = 3`. -/
def dLink : ShareLink :=
  ⟨"l5", "tok5", ShareScope.document, none, some "d1", MinRole.editor,
   none, some 3, 0, true⟩

/-- A database state holding `dLink` and one existing `reader` membership
row for the same natural key the accept flow will upsert. -/
def stD : DBState := ⟨[dLink], [⟨"d1", "u1", Role.reader⟩], [], []⟩

/-! ## C1 — optimistic-concurrency document mutator -/

/-- C1: when the stored version equals the supplied `baseVersion`, `applyOps`
commits exactly one update setting `data := applyOpsPure(currentData, ops)`
and `version := baseVersion + 1` and returns the new version; when the
stored version differs, it raises Conflict and leaves the row unchanged. -/
theorem applyOps_version_gate (doc : Document) (base : Nat) (ops : Ops) :
    (doc.version = base →
      applyOps (some doc) base ops =
        (some ⟨applyOpsPure doc.data ops, base + 1⟩, Except.ok (base + 1, ops))) ∧
    (doc.version ≠ base →
      applyOps (some doc) base ops =
        (some doc, Except.error CollabError.conflict)) := by
  constructor
  · intro h
    simp [applyOps, condUpdateDocument, h]
  · intro h
    simp [applyOps, h]

/-- C1 witness: scenario A at version 5 — a matching `baseVersion = 5` call
succeeds with version 6 and the new title, a stale `baseVersion = 5` call
against version 6 conflicts without mutation. -/
theorem applyOps_version_gate_witness :
    applyOps (some docEx) 5 opsTitleEx =
      (some ⟨[("title", JValue.str "t2")], 6⟩, Except.ok (6, opsTitleEx)) ∧
    applyOps (some ⟨docEx.data, 6⟩) 5 opsTitleEx =
      (some ⟨docEx.data, 6⟩, Except.error CollabError.conflict) := by
  constructor
  · have h := (applyOps_version_gate docEx 5 opsTitleEx).1 rfl
    rw [h]
    rfl
  · exact (applyOps_version_gate ⟨docEx.data, 6⟩ 5 opsTitleEx).2 (by decide)

/-! ## C2 — sheet patch synchronizer -/

/-- C2: for an existing sheet, a stale `baseVersion < version` call leaves
the row unchanged and returns the current authoritative state without an
error; a `baseVersion ≥ version` call wholesale-replaces the supplied
arrays (keeping absent ones), bumps the stored version by exactly 1 and
returns the new state at that version. -/
theorem applyPatchWithVersion_spec (s : Sheet) (input : PatchInput) :
    (input.baseVersion < s.version →
      applyPatchWithVersion (some s) input =
        (some s, Except.ok ⟨s.id, s.documentId,
          (s.data.getD ⟨none, none⟩).nodes.getD [],
          (s.data.getD ⟨none, none⟩).edges.getD [], s.version⟩)) ∧
    (s.version ≤ input.baseVersion →
      applyPatchWithVersion (some s) input =
        (some { s with
                data := some
                  ⟨some (input.nodes.getD ((s.data.getD ⟨none, none⟩).nodes.getD [])),
                   some (input.edges.getD ((s.data.getD ⟨none, none⟩).edges.getD []))⟩,
                version := s.version + 1 },
         Except.ok ⟨s.id, s.documentId,
           input.nodes.getD ((s.data.getD ⟨none, none⟩).nodes.getD []),
           input.edges.getD ((s.data.getD ⟨none, none⟩).edges.getD []),
           s.version + 1⟩)) := by
  constructor
  · intro h
    simp [applyPatchWithVersion, h]
  · intro h
    have h1 : ¬ input.baseVersion < s.version := Nat.not_lt.mpr h
    cases hn : input.nodes <;> cases he : input.edges <;>
      simp [applyPatchWithVersion, h1, hn, he, Option.getD]

/-- C2 witness: scenario C — a `baseVersion = 1` patch against version 2
returns the current state unchanged with no error, and a `baseVersion = 2`
patch replaces the nodes and bumps the version to 3. -/
theorem applyPatchWithVersion_spec_witness :
    applyPatchWithVersion (some sheetEx) ⟨"sh1", 1, some [JValue.str "n2"], none⟩ =
      (some sheetEx, Except.ok ⟨"sh1", "d1", [JValue.str "n1"], [], 2⟩) ∧
    applyPatchWithVersion (some sheetEx) ⟨"sh1", 2, some [JValue.str "n2"], none⟩ =
      (some ⟨"sh1", "d1", some ⟨some [JValue.str "n2"], some []⟩, 3⟩,
       Except.ok ⟨"sh1", "d1", [JValue.str "n2"], [], 3⟩) := by
  constructor
  · have h := (applyPatchWithVersion_spec sheetEx
      ⟨"sh1", 1, some [JValue.str "n2"], none⟩).1 (by decide)
    rw [h]
    rfl
  · have h := (applyPatchWithVersion_spec sheetEx
      ⟨"sh1", 2, some [JValue.str "n2"], none⟩).2 (by decide)
    rw [h]
    rfl

/-! ## C9 — guest handshake identity -/

/-- C9: a handshake carrying a (truthy) `sharedToken` is assigned the
synthetic identity `"guest:" + sharedToken` with `isGuest = true`, so any
two connections presenting the same token receive the identical actor
identity. -/
theorem handleConnection_guest_identity (a1 a2 : HandshakeAuth) (t : String)
    (ht : t ≠ "") (h1 : a1.sharedToken = some t) (h2 : a2.sharedToken = some t) :
    handleConnection a1 = ConnOutcome.assigned ("guest:" ++ t) true ∧
    handleConnection a2 = handleConnection a1 := by
  have e1 : handleConnection a1 = ConnOutcome.assigned ("guest:" ++ t) true := by
    simp [handleConnection, strTruthy, h1, ht]
  have e2 : handleConnection a2 = ConnOutcome.assigned ("guest:" ++ t) true := by
    simp [handleConnection, strTruthy, h2, ht]
  exact ⟨e1, e2.trans e1.symm⟩

/-- C9 witness: two handshakes with the same token `"abc"` (one also
carrying a bearer token) get the identical guest identity `"guest:abc"`. -/
theorem handleConnection_guest_identity_witness :
    handleConnection ⟨none, some "abc"⟩ =
      ConnOutcome.assigned ("guest:" ++ "abc") true ∧
    handleConnection ⟨some "jwt", some "abc"⟩ = handleConnection ⟨none, some "abc"⟩ :=
  handleConnection_guest_identity ⟨none, some "abc"⟩ ⟨some "jwt", some "abc"⟩
    "abc" (by decide) rfl rfl

/-! ## C10 — missing final throw in the second ensureCanEdit -/

/-- C10: with a falsy `userSub` and no shared token, the second definition
of `ensureCanEdit` falls through and returns normally, while the first
definition of `ensureCanEdit` and `ensureCanJoin` raise Forbidden on the
same inputs. -/
theorem ensureCanEditB_falls_through (collabs : List Collaborator)
    (links : List ShareLink) (now : Nat) (documentId : String)
    (userSub : Option String) (h : strTruthy userSub = false) :
    ensureCanEditB collabs links now documentId userSub none = Except.ok () ∧
    ensureCanEditA collabs links now documentId userSub none =
      Except.error CollabError.forbidden ∧
    ensureCanJoinA collabs links now documentId userSub none =
      Except.error CollabError.forbidden := by
  have hnone : strTruthy none = false := rfl
  refine ⟨?_, ?_, ?_⟩ <;>
    simp [ensureCanEditB, ensureCanEditA, ensureCanJoinA, h, hnone]

/-- C10 witness: with no credentials at all, the second `ensureCanEdit`
returns normally and the first-definition checks raise Forbidden. -/
theorem ensureCanEditB_falls_through_witness :
    ensureCanEditB [] [] 0 "d1" none none = Except.ok () ∧
    ensureCanEditA [] [] 0 "d1" none none = Except.error CollabError.forbidden ∧
    ensureCanJoinA [] [] 0 "d1" none none = Except.error CollabError.forbidden :=
  ensureCanEditB_falls_through [] [] 0 "d1" none rfl

/-! ## C3 — the permission resolver and the `owner` role -/

/-- C3 counterexample: a Collaborator row with role `owner` yields `read`,
not `edit`, from both `getPermissions` definitions, and with no row at all
the second definition yields `read` rather than no access. -/
theorem getPermissions_owner_counterexample :
    getPermissionsA [⟨"d1", "u1", Role.owner⟩] [] 0 "d1" (some "u1") none =
      some Perm.read ∧
    getPermissionsA [⟨"d1", "u1", Role.owner⟩] [] 0 "d1" (some "u1") none ≠
      some Perm.edit ∧
    getPermissionsB [⟨"d1", "u1", Role.owner⟩] [] "d1" (some "u1") none =
      Perm.read ∧
    getPermissionsB [] [] "d1" (some "u1") none = Perm.read :=
  ⟨rfl, by decide, rfl, rfl⟩

/-- C3 amended: in the authenticated path, only role `editor` yields `edit`
from `getPermissions` — `owner` and `reader` yield `read`; a missing row
yields no access in the first definition but `read` in the second; the
first `ensureCanEdit` permits `owner` and `editor` and rejects `reader`
and missing rows. -/
theorem permission_resolver_by_role (collabs : List Collaborator)
    (links : List ShareLink) (now : Nat) (documentId userSub : String)
    (hu : userSub ≠ "") :
    (∀ c, findCollaborator collabs documentId userSub = some c →
      getPermissionsA collabs links now documentId (some userSub) none =
        (if c.role = Role.editor then some Perm.edit else some Perm.read) ∧
      getPermissionsB collabs links documentId (some userSub) none =
        (if c.role = Role.editor then Perm.edit else Perm.read) ∧
      ensureCanEditA collabs links now documentId (some userSub) none =
        (if c.role = Role.reader then Except.error CollabError.forbidden
         else Except.ok ())) ∧
    (findCollaborator collabs documentId userSub = none →
      getPermissionsA collabs links now documentId (some userSub) none = none ∧
      getPermissionsB collabs links documentId (some userSub) none = Perm.read ∧
      ensureCanEditA collabs links now documentId (some userSub) none =
        Except.error CollabError.forbidden) := by
  have ht : strTruthy (some userSub) = true := by simp [strTruthy, hu]
  have hnone : strTruthy (none : Option String) = false := rfl
  constructor
  · intro c hc
    refine ⟨?_, ?_, ?_⟩ <;>
      simp [getPermissionsA, getPermissionsB, ensureCanEditA, ht, hnone, hc]
  · intro hc
    refine ⟨?_, ?_, ?_⟩ <;>
      simp [getPermissionsA, getPermissionsB, ensureCanEditA, ht, hnone, hc]

/-- C3 witness: an `editor` row resolves to `edit` and a missing row to no
access in the first definition. -/
theorem permission_resolver_by_role_witness :
    getPermissionsA [⟨"d1", "u1", Role.editor⟩] [] 0 "d1" (some "u1") none =
      (if Role.editor = Role.editor then some Perm.edit else some Perm.read) ∧
    getPermissionsA [] [] 0 "d1" (some "u1") none = none :=
  ⟨((permission_resolver_by_role [⟨"d1", "u1", Role.editor⟩] [] 0 "d1" "u1"
      (by decide)).1 ⟨"d1", "u1", Role.editor⟩ rfl).1,
   ((permission_resolver_by_role [] [] 0 "d1" "u1" (by decide)).2 rfl).1⟩

/-! ## C4 — project-scope share links on the guest path -/

/-- C4 counterexample: an active, unexpired, non-exhausted `scope=project`
link for project `p1` does **not** pass the guest-path checks for a
document of that project — join and edit are Forbidden. -/
theorem projectScope_link_denied_counterexample :
    (projLink.scope = ShareScope.project ∧ projLink.isActive = true ∧
     isExpired projLink 0 = false ∧ usageLimitReached projLink = false ∧
     (⟨"d1", "p1"⟩ : DocumentRow).projectId = projLink.projectId.getD "") ∧
    ensureCanJoinA [] [projLink] 0 "d1" none (some "tok") =
      Except.error CollabError.forbidden ∧
    ensureCanEditA [] [projLink] 0 "d1" none (some "tok") =
      Except.error CollabError.forbidden ∧
    getPermissionsA [] [projLink] 0 "d1" none (some "tok") = none :=
  ⟨⟨rfl, rfl, rfl, rfl, rfl⟩, rfl, rfl, rfl⟩

/-- C4 amended: the guest-path checks compare only `link.documentId` with
the requested document, so a link whose `documentId` is null — as every
`scope=project` link is — is rejected by `ensureCanJoin`/`ensureCanEdit`
and resolves to no access, for every document (any id other than the
literal string "null" produced by the stringified compare); project-scope
grants take effect only through `accept`. -/
theorem projectScope_link_denied (collabs : List Collaborator)
    (links : List ShareLink) (now : Nat) (link : ShareLink)
    (tok documentId : String) (ht : tok ≠ "")
    (hfind : findActiveLink links tok = some link)
    (hdoc : link.documentId = none) (hd : documentId ≠ "null") :
    ensureCanJoinA collabs links now documentId none (some tok) =
      Except.error CollabError.forbidden ∧
    ensureCanEditA collabs links now documentId none (some tok) =
      Except.error CollabError.forbidden ∧
    getPermissionsA collabs links now documentId none (some tok) = none := by
  have ht' : strTruthy (some tok) = true := by simp [strTruthy, ht]
  have hnone : strTruthy (none : Option String) = false := rfl
  have hds : jsStringOfOpt link.documentId ≠ documentId := by
    rw [hdoc]
    exact fun h => hd h.symm
  refine ⟨?_, ?_, ?_⟩ <;>
    simp [ensureCanJoinA, ensureCanEditA, getPermissionsA, ht', hnone, hfind, hds]

/-- C4 witness: the amended denial at the concrete project link. -/
theorem projectScope_link_denied_witness :
    ensureCanJoinA [] [projLink] 0 "d2" none (some "tok") =
      Except.error CollabError.forbidden ∧
    ensureCanEditA [] [projLink] 0 "d2" none (some "tok") =
      Except.error CollabError.forbidden ∧
    getPermissionsA [] [projLink] 0 "d2" none (some "tok") = none :=
  projectScope_link_denied [] [projLink] 0 projLink "tok" "d2"
    (by decide) rfl rfl (by decide)

/-! ## C5 — presence broadcast delivery sets -/

/-- C5 counterexample: a connection `b` joining a room whose only member is
`a` receives its own `presence:joined` broadcast — the emit uses
`io.to(room)` after `client.join(room)`, so the originator is in the
delivery set. -/
theorem presence_joined_echo_counterexample :
    "b" ∈ (onJoinEmit ["a"] "b").2 ∧ (onJoinEmit ["a"] "b").2 = ["a", "b"] := by
  decide

/-- C5 amended: `presence:joined` is delivered to every room member
*including* the originating connection (the socket joins the room before
the `io.to(room)` emit); `presence:left` on leave and on disconnect is
delivered to every remaining member and never to the originator (the
socket is out of the room before the emit). -/
theorem presence_broadcast_delivery (members : List String) (cid other : String)
    (hmem : other ∈ members) (hne : other ≠ cid) :
    cid ∈ (onJoinEmit members cid).2 ∧
    other ∈ (onJoinEmit members cid).2 ∧
    cid ∉ (onLeaveEmit members cid).2 ∧
    other ∈ (onLeaveEmit members cid).2 ∧
    cid ∉ (onDisconnectEmit members cid).2 ∧
    other ∈ (onDisconnectEmit members cid).2 := by
  refine ⟨?_, ?_, ?_, ?_, ?_, ?_⟩ <;>
    simp [onJoinEmit, onLeaveEmit, onDisconnectEmit, joinRoom, leaveRoom,
      hmem, hne]
  · split
    · next h => exact h
    · next h => simp
  · split
    · exact hmem
    · simp [hmem]

/-- C5 witness: in the two-member room scenario the joiner is in its own
`presence:joined` delivery set while the leaver is not in its
`presence:left` delivery set. -/
theorem presence_broadcast_delivery_witness :
    "b" ∈ (onJoinEmit ["a"] "b").2 ∧
    "a" ∈ (onJoinEmit ["a"] "b").2 ∧
    "b" ∉ (onLeaveEmit ["a", "b"] "b").2 ∧
    "a" ∈ (onLeaveEmit ["a", "b"] "b").2 ∧
    "b" ∉ (onDisconnectEmit ["a", "b"] "b").2 ∧
    "a" ∈ (onDisconnectEmit ["a", "b"] "b").2 := by
  have h1 := presence_broadcast_delivery ["a"] "b" "a" (by decide) (by decide)
  have h2 := presence_broadcast_delivery ["a", "b"] "b" "a" (by decide) (by decide)
  exact ⟨h1.1, h1.2.1, h2.2.2.1, h2.2.2.2.1, h2.2.2.2.2.1, h2.2.2.2.2.2⟩

/-! ## C7 — revoked links fail everywhere without mutation -/

/-- C7: once a slug's link(s) have `isActive = false`, every join, accept
and preview against that slug fails — regardless of remaining uses or a
future expiry — and the failing accept leaves the state untouched. -/
theorem revoked_link_always_fails (st : DBState) (now : Nat)
    (slug userSub documentId : String) (u : Option String) (hs : slug ≠ "")
    (hrev : ∀ l ∈ st.links, l.slug = slug → l.isActive = false) :
    ensureCanJoinA st.collabs st.links now documentId u (some slug) =
      Except.error CollabError.forbidden ∧
    preview st.links now slug = Except.error CollabError.notFound ∧
    accept st now slug userSub = (st, Except.error CollabError.notFound) := by
  have hfind : findActiveLink st.links slug = none := by
    apply List.find?_eq_none.mpr
    intro l hl
    simp only [Bool.and_eq_true, beq_iff_eq, not_and]
    intro h1
    rw [hrev l hl h1]
    simp
  have hsl : strTruthy (some slug) = true := by simp [strTruthy, hs]
  refine ⟨?_, ?_, ?_⟩ <;>
    simp [ensureCanJoinA, preview, accept, hsl, hfind]

/-- C7 witness: scenario D — the revoked link rejects join, preview and
accept even though `expiresAt` is in the future and uses remain. -/
theorem revoked_link_always_fails_witness :
    ensureCanJoinA [] [revokedLink] 0 "d1" none (some "tok2") =
      Except.error CollabError.forbidden ∧
    preview [revokedLink] 0 "tok2" = Except.error CollabError.notFound ∧
    accept ⟨[revokedLink], [], [], []⟩ 0 "tok2" "u1" =
      (⟨[revokedLink], [], [], []⟩, Except.error CollabError.notFound) :=
  revoked_link_always_fails ⟨[revokedLink], [], [], []⟩ 0 "tok2" "u1" "d1" none
    (by decide)
    (by
      intro l hl hslug
      rcases List.mem_singleton.mp hl with rfl
      rfl)

/-! ## Shared lemmas on find, map and the usage counters -/

/-- A link found by `findActiveLink` is a member with that slug, active. -/
lemma mem_of_findActiveLink {links : List ShareLink} {slug : String}
    {l : ShareLink} (h : findActiveLink links slug = some l) :
    l ∈ links ∧ l.slug = slug ∧ l.isActive = true := by
  have hp := List.find?_some h
  simp only [Bool.and_eq_true, beq_iff_eq] at hp
  exact ⟨List.mem_of_find?_eq_some h, hp.1, hp.2⟩

/-- Mapping with a function that leaves a projection unchanged leaves the
projected list unchanged. -/
lemma map_proj_of_invariant {α β : Type} (g : α → α) (f : α → β) (l : List α)
    (h : ∀ a, f (g a) = f a) : (l.map g).map f = l.map f := by
  induction l with
  | nil => rfl
  | cons a as ih => simp [h, ih]

/-- `find?` commutes with a map that does not change the predicate. -/
lemma find?_map_of_invariant {α : Type} (p : α → Bool) (g : α → α) (l : List α)
    (h : ∀ a, p (g a) = p a) : (l.map g).find? p = (l.find? p).map g := by
  induction l with
  | nil => rfl
  | cons a as ih =>
    by_cases hpa : p a = true
    · rw [List.map_cons, List.find?_cons_of_pos _ (by rw [h a]; exact hpa),
        List.find?_cons_of_pos _ hpa, Option.map_some']
    · rw [List.map_cons, List.find?_cons_of_neg _ (by rw [h a]; exact hpa),
        List.find?_cons_of_neg _ hpa, ih]

/-- Bumping a validated link cannot push any nonzero-capped link past its
cap (identifying the bumped row by the unique link id). -/
lemma usesBound_incrementUsesById {links : List ShareLink} {link : ShareLink}
    (hmem : link ∈ links) (hnodup : (links.map (fun l => l.id)).Nodup)
    (hlim : usageLimitReached link = false) (hinv : UsesBound links) :
    UsesBound (incrementUsesById links link.id) := by
  intro l' hl' m hm hm0
  rcases List.mem_map.mp hl' with ⟨l, hl, rfl⟩
  by_cases hid : l.id = link.id
  · have heq : l = link := List.inj_on_of_nodup_map hnodup hl hmem hid
    subst heq
    simp only [beq_self_eq_true, if_pos] at hm ⊢
    simp only [usageLimitReached, hm] at hlim ⊢
    rw [Bool.and_eq_false_iff] at hlim
    rcases hlim with h1 | h2
    · simp at h1
      exact absurd h1 hm0
    · simp at h2
      omega
  · simp only [beq_eq_false_iff_ne.mpr hid, if_neg, Bool.false_eq_true,
      not_false_eq_true] at hm ⊢
    exact hinv l hl m hm hm0

/-- Same cap preservation for the slug-keyed increment. -/
lemma usesBound_incrementUsesBySlug {links : List ShareLink} {link : ShareLink}
    {slug : String} (hmem : link ∈ links) (hs : link.slug = slug)
    (hnodup : (links.map (fun l => l.slug)).Nodup)
    (hlim : usageLimitReached link = false) (hinv : UsesBound links) :
    UsesBound (incrementUsesBySlug links slug) := by
  intro l' hl' m hm hm0
  rcases List.mem_map.mp hl' with ⟨l, hl, rfl⟩
  by_cases hsl : l.slug = slug
  · have heq : l = link := List.inj_on_of_nodup_map hnodup hl hmem (hsl.trans hs.symm)
    subst heq
    simp only [beq_iff_eq, hsl, if_pos] at hm ⊢
    simp only [usageLimitReached, hm] at hlim ⊢
    rw [Bool.and_eq_false_iff] at hlim
    rcases hlim with h1 | h2
    · simp at h1
      exact absurd h1 hm0
    · simp at h2
      omega
  · simp only [beq_eq_false_iff_ne.mpr hsl, if_neg, Bool.false_eq_true,
      not_false_eq_true] at hm ⊢
    exact hinv l hl m hm hm0

/-- The id-keyed increment changes no projection that ignores `uses`. -/
lemma incrementUsesById_map_proj {β : Type} (links : List ShareLink) (id : String)
    (f : ShareLink → β) (h : ∀ l : ShareLink, f { l with uses := l.uses + 1 } = f l) :
    (incrementUsesById links id).map f = links.map f := by
  unfold incrementUsesById
  apply map_proj_of_invariant
  intro a
  by_cases hx : (a.id == id) = true <;> simp [hx, h]

/-- The slug-keyed increment changes no projection that ignores `uses`. -/
lemma incrementUsesBySlug_map_proj {β : Type} (links : List ShareLink) (slug : String)
    (f : ShareLink → β) (h : ∀ l : ShareLink, f { l with uses := l.uses + 1 } = f l) :
    (incrementUsesBySlug links slug).map f = links.map f := by
  unfold incrementUsesBySlug
  apply map_proj_of_invariant
  intro a
  by_cases hx : (a.slug == slug) = true <;> simp [hx, h]

/-- `accept` keeps the cap invariant and leaves the id and slug columns of
the link table unchanged. -/
lemma usesBound_accept (st : DBState) (now : Nat) (slug userSub : String)
    (hid : (st.links.map (fun l => l.id)).Nodup)
    (hinv : UsesBound st.links) :
    UsesBound (accept st now slug userSub).1.links ∧
    (accept st now slug userSub).1.links.map (fun l => l.id) =
      st.links.map (fun l => l.id) ∧
    (accept st now slug userSub).1.links.map (fun l => l.slug) =
      st.links.map (fun l => l.slug) := by
  unfold accept
  cases hfind : findActiveLink st.links slug with
  | none => exact ⟨hinv, rfl, rfl⟩
  | some link =>
    by_cases hexp : isExpired link now = true
    · simp only [hexp, if_true]
      exact ⟨hinv, trivial, trivial⟩
    · by_cases hlim : usageLimitReached link = true
      · simp only [hexp, hlim, Bool.false_eq_true, not_false_eq_true, if_neg,
          if_true]
        exact ⟨hinv, trivial, trivial⟩
      · have hmem := (mem_of_findActiveLink hfind).1
        have hlim' : usageLimitReached link = false := by
          simpa using hlim
        simp only [hexp, hlim, Bool.false_eq_true, not_false_eq_true, if_neg]
        exact ⟨usesBound_incrementUsesById hmem hid hlim' hinv,
          incrementUsesById_map_proj st.links link.id (fun l => l.id)
            (fun l => rfl),
          incrementUsesById_map_proj st.links link.id (fun l => l.slug)
            (fun l => rfl)⟩

/-- `incrementShareUseOnce` keeps the cap invariant and leaves the id and
slug columns of the link table unchanged. -/
lemma usesBound_incrementShareUseOnce (st : DBState) (slug : String)
    (hslug : (st.links.map (fun l => l.slug)).Nodup)
    (hinv : UsesBound st.links) :
    UsesBound (incrementShareUseOnce st slug).links ∧
    (incrementShareUseOnce st slug).links.map (fun l => l.id) =
      st.links.map (fun l => l.id) ∧
    (incrementShareUseOnce st slug).links.map (fun l => l.slug) =
      st.links.map (fun l => l.slug) := by
  unfold incrementShareUseOnce
  by_cases hc : st.alreadyCounted.contains slug = true
  · simp only [hc, if_true]
    exact ⟨hinv, trivial, trivial⟩
  · simp only [hc, Bool.false_eq_true, not_false_eq_true, if_neg]
    cases hfind : findActiveLink st.links slug with
    | none => exact ⟨hinv, rfl, rfl⟩
    | some link =>
      by_cases hlim : usageLimitReached link = true
      · simp only [hlim, if_true]
        exact ⟨hinv, trivial, trivial⟩
      · have hmem := (mem_of_findActiveLink hfind).1
        have hs := (mem_of_findActiveLink hfind).2.1
        have hlim' : usageLimitReached link = false := by
          simpa using hlim
        simp only [hlim, Bool.false_eq_true, not_false_eq_true, if_neg]
        exact ⟨usesBound_incrementUsesBySlug hmem hs hslug hlim' hinv,
          incrementUsesBySlug_map_proj st.links slug (fun l => l.id)
            (fun l => rfl),
          incrementUsesBySlug_map_proj st.links slug (fun l => l.slug)
            (fun l => rfl)⟩

/-- One usage-accounting step keeps the cap invariant and leaves the id and
slug columns of the link table unchanged. -/
lemma usesBound_runUsageOp (st : DBState) (op : UsageOp)
    (hid : (st.links.map (fun l => l.id)).Nodup)
    (hslug : (st.links.map (fun l => l.slug)).Nodup)
    (hinv : UsesBound st.links) :
    UsesBound (runUsageOp st op).links ∧
    (runUsageOp st op).links.map (fun l => l.id) = st.links.map (fun l => l.id) ∧
    (runUsageOp st op).links.map (fun l => l.slug) = st.links.map (fun l => l.slug) := by
  cases op with
  | acceptOp now slug userSub => exact usesBound_accept st now slug userSub hid hinv
  | incOnceOp slug => exact usesBound_incrementShareUseOnce st slug hslug hinv

/-- The cap invariant holds along any sequence of usage operations. -/
lemma usesBound_runUsageOps (ops : List UsageOp) :
    ∀ st : DBState, (st.links.map (fun l => l.id)).Nodup →
      (st.links.map (fun l => l.slug)).Nodup → UsesBound st.links →
      UsesBound (runUsageOps st ops).links := by
  induction ops with
  | nil =>
    intro st _ _ hinv
    exact hinv
  | cons op ops ih =>
    intro st hid hslug hinv
    have h := usesBound_runUsageOp st op hid hslug hinv
    show UsesBound (runUsageOps (runUsageOp st op) ops).links
    exact ih (runUsageOp st op) (by rw [h.2.1]; exact hid)
      (by rw [h.2.2]; exact hslug) h.1

/-! ## C6 — the `uses ≤ maxUses` invariant -/

/-- C6 counterexample: for a link with `maxUses = 0` (a set value), one
`accept` succeeds and raises `uses` to 1 > 0 — the JS guard
`link.maxUses && ...` treats the zero cap as falsy and skips the check. -/
theorem maxUses_zero_exceeded_counterexample :
    zeroCapLink.maxUses = some 0 ∧ zeroCapLink.uses = 0 ∧
    (accept ⟨[zeroCapLink], [], [], []⟩ 0 "tok3" "u1").2 = Except.ok () ∧
    (accept ⟨[zeroCapLink], [], [], []⟩ 0 "tok3" "u1").1.links.map
      (fun l => l.uses) = [1] :=
  ⟨rfl, rfl, rfl, rfl⟩

/-- C6 amended: for every link whose `maxUses` is set to a **nonzero** value
and within its cap, any sequence of `accept` / `incrementShareUseOnce`
calls keeps `uses ≤ maxUses` (given the database uniqueness of link ids
and slugs); scenario B holds as stated: with `maxUses = 3` three accepts
succeed taking `uses` 1→3 and the fourth fails Forbidden without changing
the state. -/
theorem shareLink_uses_never_exceed_cap (st : DBState) (ops : List UsageOp)
    (hid : (st.links.map (fun l => l.id)).Nodup)
    (hslug : (st.links.map (fun l => l.slug)).Nodup)
    (hinv : UsesBound st.links) :
    UsesBound (runUsageOps st ops).links ∧
    ((accept capState 0 "tok4" "u1").2 = Except.ok () ∧
     (accept (runUsageOps capState (threeAccepts.take 1)) 0 "tok4" "u2").2 =
       Except.ok () ∧
     (accept (runUsageOps capState (threeAccepts.take 2)) 0 "tok4" "u3").2 =
       Except.ok () ∧
     (runUsageOps capState (threeAccepts.take 1)).links.map (fun l => l.uses) =
       [1] ∧
     (runUsageOps capState (threeAccepts.take 2)).links.map (fun l => l.uses) =
       [2] ∧
     (runUsageOps capState threeAccepts).links.map (fun l => l.uses) = [3] ∧
     accept (runUsageOps capState threeAccepts) 0 "tok4" "u4" =
       (runUsageOps capState threeAccepts, Except.error CollabError.forbidden)) := by
  exact ⟨usesBound_runUsageOps ops st hid hslug hinv,
    rfl, rfl, rfl, rfl, rfl, rfl, rfl⟩

/-! ## Lemmas on the Collaborator upsert -/

/-- Upserting a row establishes that natural key with the new role. -/
lemma memberRole_upsert_self (cs : List Collaborator) (did u : String) (r : Role) :
    memberRole (upsertCollaborator cs did u r) did u = some r := by
  unfold memberRole findCollaborator upsertCollaborator
  by_cases hany : cs.any (fun c => c.documentId == did && c.userSub == u) = true
  · rw [if_pos hany]
    rw [find?_map_of_invariant (fun c => c.documentId == did && c.userSub == u)
      (fun c => if c.documentId == did && c.userSub == u then { c with role := r }
        else c) cs
      (fun a => by
        by_cases h : (a.documentId == did && a.userSub == u) = true <;> simp [h])]
    obtain ⟨c0, hc0, hp0⟩ := List.any_eq_true.mp hany
    have hsome : (cs.find?
        (fun c => c.documentId == did && c.userSub == u)).isSome = true :=
      List.find?_isSome.mpr ⟨c0, hc0, hp0⟩
    obtain ⟨c1, hc1⟩ := Option.isSome_iff_exists.mp hsome
    rw [hc1]
    have hp1 := List.find?_some hc1
    simp only [Bool.and_eq_true, beq_iff_eq] at hp1
    simp [hp1.1, hp1.2]
  · rw [if_neg hany]
    have hnone : cs.find? (fun c => c.documentId == did && c.userSub == u) = none := by
      rw [List.find?_eq_none]
      intro x hx hpx
      exact hany (List.any_eq_true.mpr ⟨x, hx, hpx⟩)
    rw [List.find?_append, hnone, Option.none_or]
    rw [List.find?_cons_of_pos _ (by simp)]
    simp

/-- Upserting any key with role `r` preserves every key already resolved to
role `r` (an update can only rewrite a role to `r` itself). -/
lemma memberRole_upsert_preserve (cs : List Collaborator) (did u did2 u2 : String)
    (r : Role) (h : memberRole cs did u = some r) :
    memberRole (upsertCollaborator cs did2 u2 r) did u = some r := by
  unfold memberRole findCollaborator at h ⊢
  unfold upsertCollaborator
  obtain ⟨c1, hc1, hrole⟩ := Option.map_eq_some'.mp h
  by_cases hany : cs.any (fun c => c.documentId == did2 && c.userSub == u2) = true
  · rw [if_pos hany]
    rw [find?_map_of_invariant (fun c => c.documentId == did && c.userSub == u)
      (fun c => if c.documentId == did2 && c.userSub == u2 then { c with role := r }
        else c) cs
      (fun a => by
        by_cases hq : (a.documentId == did2 && a.userSub == u2) = true <;> simp [hq])]
    rw [hc1, Option.map_some']
    by_cases hq : c1.documentId = did2 ∧ c1.userSub = u2
    · simp [hq.1, hq.2]
    · have hqb : (c1.documentId == did2 && c1.userSub == u2) = false := by
        rw [Bool.and_eq_false_iff]
        by_cases h1 : c1.documentId = did2
        · right
          rw [beq_eq_false_iff_ne]
          intro h2
          exact hq ⟨h1, h2⟩
        · left
          rw [beq_eq_false_iff_ne]
          exact h1
      rw [if_neg (by simp [hqb])]
      simp [hrole]
  · rw [if_neg hany, List.find?_append, hc1]
    simpa using hrole

/-- After folding the per-document upserts of a project accept, every listed
document's key resolves to the granted role. -/
lemma memberRole_fold_preserve (ds : List DocumentRow) (u : String) (r : Role) :
    ∀ cs : List Collaborator, ∀ did : String,
      memberRole cs did u = some r →
      memberRole (ds.foldl
        (fun acc d2 => upsertCollaborator acc d2.id u r) cs) did u = some r := by
  induction ds with
  | nil =>
    intro cs did h
    exact h
  | cons d0 ds ih =>
    intro cs did h
    exact ih _ did (memberRole_upsert_preserve cs did u d0.id u r h)

/-- Every document of the fold list ends with the granted role. -/
lemma memberRole_fold_upsert (ds : List DocumentRow) (u : String) (r : Role) :
    ∀ cs : List Collaborator, ∀ d ∈ ds,
      memberRole (ds.foldl
        (fun acc d2 => upsertCollaborator acc d2.id u r) cs) d.id u = some r := by
  induction ds with
  | nil =>
    intro cs d hd
    cases hd
  | cons d0 ds ih =>
    intro cs d hd
    rcases List.mem_cons.mp hd with rfl | hmem
    · exact memberRole_fold_preserve ds u r _ d.id (memberRole_upsert_self cs d.id u r)
    · exact ih (upsertCollaborator cs d0.id u r) d hmem

/-- An upsert never takes a natural key from at most one row to more than
one row: it updates in place or inserts into a key that had none. -/
lemma countKey_upsert_le_one (cs : List Collaborator) (did u : String) (r : Role)
    (did2 u2 : String) (h : countKey cs did2 u2 ≤ 1) :
    countKey (upsertCollaborator cs did u r) did2 u2 ≤ 1 := by
  unfold countKey at h ⊢
  unfold upsertCollaborator
  by_cases hany : cs.any (fun c => c.documentId == did && c.userSub == u) = true
  · rw [if_pos hany, List.countP_map]
    calc List.countP ((fun c => c.documentId == did2 && c.userSub == u2) ∘
          fun c => if c.documentId == did && c.userSub == u then { c with role := r }
            else c) cs
        = cs.countP (fun c => c.documentId == did2 && c.userSub == u2) := by
          apply List.countP_congr
          intro a _
          rw [Function.comp_apply]
          by_cases hq : (a.documentId == did && a.userSub == u) = true <;> simp [hq]
      _ ≤ 1 := h
  · rw [if_neg hany, List.countP_append]
    by_cases hkey : did2 = did ∧ u2 = u
    · rcases hkey with ⟨rfl, rfl⟩
      have h0 : cs.countP (fun c => c.documentId == did2 && c.userSub == u2) = 0 := by
        rw [List.countP_eq_zero]
        intro a ha hpa
        exact hany (List.any_eq_true.mpr ⟨a, ha, hpa⟩)
      rw [h0, List.countP_cons, List.countP_nil]
      simp
    · have hpnew : ((⟨did, u, r⟩ : Collaborator).documentId == did2 &&
          (⟨did, u, r⟩ : Collaborator).userSub == u2) = false := by
        simp only [Bool.and_eq_false_iff, beq_eq_false_iff_ne]
        by_cases h1 : did = did2
        · right
          intro h2
          exact hkey ⟨h1.symm, h2.symm⟩
        · left
          exact h1
      rw [List.countP_cons, List.countP_nil, hpnew]
      simpa using h

/-- The at-most-one-row-per-key bound survives the project-scope fold. -/
lemma countKey_fold_upsert_le_one (ds : List DocumentRow) (u : String) (r : Role) :
    ∀ cs : List Collaborator, ∀ did2 u2 : String,
      countKey cs did2 u2 ≤ 1 →
      countKey (ds.foldl
        (fun acc d2 => upsertCollaborator acc d2.id u r) cs) did2 u2 ≤ 1 := by
  induction ds with
  | nil =>
    intro cs _ _ h
    exact h
  | cons d0 ds ih =>
    intro cs did2 u2 h
    exact ih _ did2 u2 (countKey_upsert_le_one cs d0.id u r did2 u2 h)

/-- When the natural key already has a row, the upsert inserts nothing. -/
lemma upsert_length_of_exists (cs : List Collaborator) (did u : String) (r : Role)
    (h : ∃ c ∈ cs, c.documentId = did ∧ c.userSub = u) :
    (upsertCollaborator cs did u r).length = cs.length := by
  unfold upsertCollaborator
  have hany : cs.any (fun c => c.documentId == did && c.userSub == u) = true := by
    obtain ⟨c, hc, h1, h2⟩ := h
    exact List.any_eq_true.mpr ⟨c, hc, by simp [h1, h2]⟩
  rw [if_pos hany, List.length_map]

/-- Whatever a validated link's scope and targets, `acceptCollabs` keeps
every natural key at no more than one row. -/
lemma countKey_acceptCollabs_le_one (st : DBState) (link : ShareLink)
    (userSub did2 u2 : String) (h : countKey st.collabs did2 u2 ≤ 1) :
    countKey (acceptCollabs st link userSub) did2 u2 ≤ 1 := by
  unfold acceptCollabs
  cases hsc : link.scope with
  | document =>
    cases hdoc : link.documentId with
    | none => exact h
    | some did =>
      exact countKey_upsert_le_one st.collabs did userSub (roleOfMinRole link.minRole) did2 u2 h
  | project =>
    cases hdoc : link.documentId with
    | none =>
      cases hproj : link.projectId with
      | none => exact h
      | some pid =>
        exact countKey_fold_upsert_le_one _ userSub (roleOfMinRole link.minRole) st.collabs did2 u2 h
    | some did =>
      cases hproj : link.projectId with
      | none => exact h
      | some pid =>
        exact countKey_fold_upsert_le_one _ userSub (roleOfMinRole link.minRole) st.collabs did2 u2 h

/-- Bumping the found link's id raises exactly that row's `uses` by one and
leaves every other id's row untouched. -/
lemma findLinkById_incrementUsesById (links : List ShareLink) (link : ShareLink)
    (hmem : link ∈ links) (hnodup : (links.map (fun l => l.id)).Nodup) :
    findLinkById (incrementUsesById links link.id) link.id =
      some { link with uses := link.uses + 1 } ∧
    ∀ id2, id2 ≠ link.id →
      findLinkById (incrementUsesById links link.id) id2 = findLinkById links id2 := by
  constructor
  · unfold findLinkById incrementUsesById
    rw [find?_map_of_invariant (fun l => l.id == link.id)
      (fun l => if l.id == link.id then { l with uses := l.uses + 1 } else l) links
      (fun a => by
        by_cases hx : (a.id == link.id) = true <;> simp [hx])]
    have hsome : (links.find? (fun l => l.id == link.id)).isSome = true :=
      List.find?_isSome.mpr ⟨link, hmem, by simp⟩
    obtain ⟨c1, hc1⟩ := Option.isSome_iff_exists.mp hsome
    have hp1 := List.find?_some hc1
    have hc1id : c1.id = link.id := by simpa using hp1
    have : c1 = link :=
      List.inj_on_of_nodup_map hnodup (List.mem_of_find?_eq_some hc1) hmem hc1id
    subst this
    rw [hc1]
    simp
  · intro id2 hne
    unfold findLinkById incrementUsesById
    rw [find?_map_of_invariant (fun l => l.id == id2)
      (fun l => if l.id == link.id then { l with uses := l.uses + 1 } else l) links
      (fun a => by
        by_cases hx : (a.id == link.id) = true <;> simp [hx])]
    cases hfound : links.find? (fun l => l.id == id2) with
    | none => rfl
    | some c1 =>
      have hp1 := List.find?_some hfound
      have hc1id : c1.id = id2 := by simpa using hp1
      have hnot : (c1.id == link.id) = false := by
        rw [hc1id]
        exact beq_eq_false_iff_ne.mpr hne
      rw [Option.map_some']
      rw [if_neg (by simp [hnot])]

/-! ## C8 — what a valid accept grants -/

/-- C8: a valid (found-active, unexpired, non-exhausted) `accept` succeeds,
increments exactly the accepted link's `uses` by 1 in the same transaction,
upserts the Collaborator row `(documentId, actorId, minRole)` for document
scope — inserting nothing when the natural key already has a row — grants
`minRole` on every document of the project for project scope, and keeps
every natural key at no more than one membership row. -/
theorem accept_valid_link_grants (st : DBState) (now : Nat) (slug userSub : String)
    (link : ShareLink)
    (hfind : findActiveLink st.links slug = some link)
    (hexp : isExpired link now = false)
    (hlim : usageLimitReached link = false)
    (hid : (st.links.map (fun l => l.id)).Nodup) :
    (accept st now slug userSub).2 = Except.ok () ∧
    findLinkById (accept st now slug userSub).1.links link.id =
      some { link with uses := link.uses + 1 } ∧
    (∀ id2, id2 ≠ link.id →
      findLinkById (accept st now slug userSub).1.links id2 =
        findLinkById st.links id2) ∧
    (∀ did, link.scope = ShareScope.document → link.documentId = some did →
      memberRole (accept st now slug userSub).1.collabs did userSub =
        some (roleOfMinRole link.minRole) ∧
      ((∃ c ∈ st.collabs, c.documentId = did ∧ c.userSub = userSub) →
        (accept st now slug userSub).1.collabs.length = st.collabs.length)) ∧
    (∀ pid, link.scope = ShareScope.project → link.projectId = some pid →
      ∀ d ∈ st.docs, d.projectId = pid →
        memberRole (accept st now slug userSub).1.collabs d.id userSub =
          some (roleOfMinRole link.minRole)) ∧
    (∀ did2 u2, countKey st.collabs did2 u2 ≤ 1 →
      countKey (accept st now slug userSub).1.collabs did2 u2 ≤ 1) := by
  have hmem := (mem_of_findActiveLink hfind).1
  have hacc : accept st now slug userSub =
      ({ st with collabs := acceptCollabs st link userSub,
                 links := incrementUsesById st.links link.id }, Except.ok ()) := by
    unfold accept
    rw [hfind]
    simp [hexp, hlim]
  rw [hacc]
  refine ⟨rfl, ?_, ?_, ?_, ?_, ?_⟩
  · exact (findLinkById_incrementUsesById st.links link hmem hid).1
  · exact (findLinkById_incrementUsesById st.links link hmem hid).2
  · intro did hsc hdoc
    have hcol : acceptCollabs st link userSub =
        upsertCollaborator st.collabs did userSub (roleOfMinRole link.minRole) := by
      unfold acceptCollabs
      rw [hsc, hdoc]
    rw [hcol]
    exact ⟨memberRole_upsert_self st.collabs did userSub (roleOfMinRole link.minRole),
      fun hex => upsert_length_of_exists st.collabs did userSub
        (roleOfMinRole link.minRole) hex⟩
  · intro pid hsc hproj d hd hdp
    have hcol : acceptCollabs st link userSub =
        (st.docs.filter (fun (d2 : DocumentRow) => d2.projectId == pid)).foldl
          (fun acc d2 => upsertCollaborator acc d2.id userSub
            (roleOfMinRole link.minRole)) st.collabs := by
      unfold acceptCollabs
      rw [hsc, hproj]
    rw [hcol]
    exact memberRole_fold_upsert _ userSub (roleOfMinRole link.minRole) st.collabs d
      (List.mem_filter.mpr ⟨hd, by simp [hdp]⟩)
  · intro did2 u2 h
    exact countKey_acceptCollabs_le_one st link userSub did2 u2 h

/-- C8 witness: accepting `dLink` with an existing reader row for the same
key succeeds, bumps `uses` to 1, updates (not duplicates) the membership
row to the link's `minRole`, and keeps one row for the key. -/
theorem accept_valid_link_grants_witness :
    (accept stD 0 "tok5" "u1").2 = Except.ok () ∧
    findLinkById (accept stD 0 "tok5" "u1").1.links dLink.id =
      some { dLink with uses := dLink.uses + 1 } ∧
    memberRole (accept stD 0 "tok5" "u1").1.collabs "d1" "u1" =
      some (roleOfMinRole dLink.minRole) ∧
    (accept stD 0 "tok5" "u1").1.collabs.length = stD.collabs.length ∧
    countKey (accept stD 0 "tok5" "u1").1.collabs "d1" "u1" ≤ 1 := by
  have h := accept_valid_link_grants stD 0 "tok5" "u1" dLink rfl rfl rfl (by decide)
  refine ⟨h.1, h.2.1, ?_, ?_, ?_⟩
  · exact (h.2.2.2.1 "d1" rfl rfl).1
  · exact (h.2.2.2.1 "d1" rfl rfl).2
      ⟨⟨"d1", "u1", Role.reader⟩, List.mem_singleton.mpr rfl, rfl, rfl⟩
  · exact h.2.2.2.2.2 "d1" "u1" (by decide)

/-- C6 witness: the invariant applied to the scenario-B state and trace. -/
theorem shareLink_uses_never_exceed_cap_witness :
    UsesBound (runUsageOps capState threeAccepts).links ∧
    (runUsageOps capState threeAccepts).links.map (fun l => l.uses) = [3] := by
  have h := shareLink_uses_never_exceed_cap capState threeAccepts
    (by decide) (by decide)
    (by
      intro l hl m hm hm0
      rcases List.mem_singleton.mp hl with rfl
      simp only [capLink] at hm ⊢
      injection hm with hm2
      subst hm2
      decide)
  exact ⟨h.1, h.2.2.2.2.2.2.1⟩

end Collab
